import Mathlib

/-!
Shallow embedding of the pyrameter core (src/pyrameter/optimizer.py,
src/pyrameter/domain.py, src/pyrameter/domains/base.py) together with
theorems settling the specification claims about it.

Python exceptions are modelled with an explicit error type and the
`Except` monad: an embedded function returns `.error e` exactly when the
Python code raises exception `e` on that input, and `.ok v` when it
returns `v`.  Mutation is modelled by state passing: a method that
mutates `self` returns the updated object alongside its result.
-/

/-- The Python exceptions that the embedded code can raise. -/
inductive PyErr : Type where
  | indexError
  | nameError
  | typeError
  | attributeError
deriving DecidableEq, Repr

/-!
### Data model for the optimizer (optimizer.py)

The `SearchSpace` and `Trial` classes are imported by optimizer.py from
modules that are not part of the sources (pyrameter/searchspace.py and
pyrameter/trial.py).  They are modelled from the spec below; the
optimizer methods themselves are embedded from optimizer.py.
-/

/-- Modelled from the spec: the Trial class (pyrameter/trial.py) is not
among the sources.  Per the spec's data model a trial carries an id, a
hyperparameter mapping, a nullable objective, free-form results, a
nullable error message, a status whose value 3 denotes terminal success,
and a `submissions` counter of how many times a result was registered
against it.  Objective values and results are represented by integers;
the embedded optimizer code never computes with them, it only stores and
returns them. -/
structure Trial where
  id : String
  hyperparameters : List (String × Int)
  objective : Option Int
  results : Option Int
  errmsg : Option String
  statusValue : Nat
  submissions : Nat
deriving DecidableEq, Repr

/-- Modelled from the spec: the SearchSpace class
(pyrameter/searchspace.py) is not among the sources.  Per the spec it
exposes an `id`, a `complexity` (product of the member domains'
complexities — held here as a stored attribute since the member domains
play no role in the optimizer code under study), an `uncertainty`, a
scheduling `rank`, a `done` flag, and the list of trials it owns. -/
structure SearchSpace where
  id : String
  complexity : ℚ
  uncertainty : ℚ
  rank : Nat
  done : Bool
  trials : List Trial
deriving DecidableEq, Repr

/-- State of an `FMin` optimizer (optimizer.py).  `trialKeys` holds the
keys of the `self.trials` dict — its values are aliases of the trial
objects owned by the search spaces, so only the key set is modelled.
The `spec`, `method` and `backend` attributes are omitted: the selection
method is passed explicitly to `generate` (see `FMin.generate_noss`) and
the backend is never touched by the embedded operations. -/
structure FMin where
  exp_key : String
  searchspaces : List SearchSpace
  trialKeys : List String
  max_evals : Option Int
  did_sort : Bool
deriving DecidableEq, Repr

/-- Replace the first element satisfying `p` by `f` of it, as Python's
pattern of looking an object up in a list and mutating it in place does
(only the first match is the object that gets mutated). -/
def replaceFirst {α : Type} (p : α → Bool) (f : α → α) : List α → List α
  | [] => []
  | x :: xs => if p x then f x :: xs else x :: replaceFirst p f xs

/-- The while loop of `FMin.generate` (optimizer.py line 109):
`while self.searchspaces[idx].done and idx < len(self.searchspaces):
idx += 1`.  Python evaluates `self.searchspaces[idx].done` before the
bounds test, so once `idx` reaches the length of the list the subscript
raises an uncaught IndexError.  The loop only ever inspects the suffix
of the list starting at the initial `idx`, so it is embedded as a scan
of that suffix; falling off the end is the IndexError. -/
def scanNotDone : List SearchSpace → Except PyErr SearchSpace
  | [] => .error .indexError
  | ss :: rest => if ss.done then scanNotDone rest else .ok ss

/-- Record the keys of `self.trials` after `self.trials[tid] = trial`. -/
def insertKey (keys : List String) (tid : String) : List String :=
  if keys.contains tid then keys else keys ++ [tid]

/-- Embedding of `FMin.generate` for the `ssid is None` branch
(optimizer.py lines 100-115 and 124-126).  `startIdx` stands for the
index drawn by `np.random.choice` (the planck / uniform weighting only
affects which index is drawn, never what happens afterwards), and
`call` stands for `self.searchspaces[idx](method=self.method)` — the
SearchSpace `__call__` lives in a module that is not among the sources;
per the spec it produces a new Trial, and any IndexError it raises is
caught and turned into `None` by the `try`/`except` block. -/
def FMin.generate_noss (fm : FMin) (call : SearchSpace → Except PyErr Trial)
    (startIdx : Nat) : Except PyErr (Option Trial × FMin) :=
  match scanNotDone (fm.searchspaces.drop startIdx) with
  | .error e => .error e
  | .ok ss =>
    match call ss with
    | .ok trial => .ok (some trial, { fm with trialKeys := insertKey fm.trialKeys trial.id })
    | .error .indexError => .ok (none, fm)
    | .error e => .error e

/-- Embedding of `FMin.generate` for the `ssid` given branch
(optimizer.py lines 116-122).  Line 117 binds the first matching space
to `searchspace` via a list comprehension (`[ss for ss in
self.searchspaces if ss.id == ssid][0]`, IndexError when the filter is
empty); line 119 then tests `not ss.done`, but `ss` is the
comprehension's loop variable, which in Python 3 is scoped to the
comprehension — the name is unbound at function scope, so the test
raises NameError whenever the lookup itself succeeded. -/
def FMin.generate_ssid (fm : FMin) (ssid : String) : Except PyErr (Option Trial) :=
  match fm.searchspaces.find? (fun ss => ss.id == ssid) with
  | none => .error .indexError
  | some _ => .error .nameError

/-- Modelled from the spec: the effect of the attribute writes
`trial.objective = objective; trial.results = results;
trial.errmsg = errmsg` (optimizer.py lines 164-166).  The writes
themselves are plain stores; the Trial class that may react to them is
not among the sources, so the status transition follows the spec's
state machine — an error message marks the trial ERROR (a terminal
status other than 3), a successful objective marks it DONE
(`status.value == 3`, terminal success). -/
def Trial.applyResult (t : Trial) (objective results : Option Int)
    (errmsg : Option String) : Trial :=
  { t with
    objective := objective
    results := results
    errmsg := errmsg
    statusValue :=
      if errmsg.isSome then 4
      else if objective.isSome then 3
      else t.statusValue }

/-- Embedding of `FMin.register_result` (optimizer.py lines 142-195) for
a single (non-list) `trial_id` — the `isinstance(trial_id, list)` batch
branch repeats the same bookkeeping per element and is not needed by
the claims.  Ids are modelled as strings, so the `str(ss.id) == ssid`
and `str(t.id) == str(trial_id)` comparisons are plain equality.  The
`[x for x in ...][0]` lookups raise IndexError when nothing matches.
`n_done > self.max_evals` compares an int against `max_evals`; when
`max_evals` is `None` that comparison raises TypeError in Python 3. -/
def FMin.register_result (fm : FMin) (ssid : String) (trial_id : String)
    (objective results : Option Int) (errmsg : Option String) :
    Except PyErr (FMin × Nat × List (String × Int)) :=
  match fm.searchspaces.find? (fun ss => ss.id == ssid) with
  | none => .error .indexError
  | some ss =>
    match ss.trials.find? (fun t => t.id == trial_id) with
    | none => .error .indexError
    | some t =>
      let t1 := t.applyResult objective results errmsg
      let hyperparameters := t1.hyperparameters
      let keys := insertKey fm.trialKeys t1.id
      let t2 := { t1 with submissions := t1.submissions + 1 }
      let ss1 := { ss with trials := replaceFirst (fun u => u.id == trial_id) (fun _ => t2) ss.trials }
      if ss1.complexity == 1 then
        let nDone := (ss1.trials.filter (fun u => u.statusValue == 3)).length
        match fm.max_evals with
        | none => .error .typeError
        | some m =>
          let ss2 := if nDone > m then { ss1 with done := true } else ss1
          .ok ({ fm with
                  searchspaces := replaceFirst (fun s => s.id == ssid) (fun _ => ss2) fm.searchspaces
                  trialKeys := keys },
               t2.submissions, hyperparameters)
      else
        .ok ({ fm with
                searchspaces := replaceFirst (fun s => s.id == ssid) (fun _ => ss1) fm.searchspaces
                trialKeys := keys },
             t2.submissions, hyperparameters)

/-- Look a trial up through the optimizer state: the first space with
the given id, then its first trial with the given id. -/
def FMin.findTrial (fm : FMin) (ssid : String) (trial_id : String) : Option Trial :=
  (fm.searchspaces.find? (fun ss => ss.id == ssid)).bind
    (fun ss => ss.trials.find? (fun t => t.id == trial_id))

/-!
### Embedding of `FMin.sort_spaces` (optimizer.py lines 202-229)
-/

/-- Lexicographic order on (original index, value) pairs by value first:
the relation under which sorting `vals.enum` recovers `np.argsort`.
Indices are distinct, so the index tiebreak only fixes the order of
equal values (numpy's default quicksort leaves that order unspecified;
every concrete input used below has pairwise distinct values, where all
argsort implementations agree). -/
def argsortRel (a b : Nat × ℚ) : Prop :=
  a.2 < b.2 ∨ (a.2 = b.2 ∧ a.1 ≤ b.1)

instance : DecidableRel argsortRel := fun a b => by
  unfold argsortRel; infer_instance

/-- Embedding of `np.argsort(vals)`: the list of positions of `vals`
reordered so that the corresponding values are nondecreasing — entry
`i` of the result is the index of the element that sorts into place
`i`. -/
def argsort (vals : List ℚ) : List Nat :=
  (List.insertionSort argsortRel vals.enum).map (fun p => p.1)

/-- The loop `for i in range(idx.shape[0]): self.searchspaces[i].rank *=
idx[i]` (optimizer.py lines 218-219 and 224-225): position `i`'s rank
is multiplied by entry `i` of the argsort result. -/
def applyArgsortRanks (sss : List SearchSpace) (idx : List Nat) : List SearchSpace :=
  sss.zipWith (fun ss j => { ss with rank := ss.rank * j }) idx

/-- Comparison key of the final `self.searchspaces.sort(key=lambda x:
x.rank)` (optimizer.py line 228); Python's sort is stable, as is
`List.insertionSort`. -/
def rankLe (a b : SearchSpace) : Prop := a.rank ≤ b.rank

instance : DecidableRel rankLe := fun a b => Nat.decLe a.rank b.rank

instance : IsTotal SearchSpace rankLe := ⟨fun a b => Nat.le_total a.rank b.rank⟩

instance : IsTrans SearchSpace rankLe := ⟨fun _ _ _ h h' => Nat.le_trans h h'⟩

/-- Embedding of `FMin.sort_spaces` (optimizer.py lines 202-229): reset
every rank to 1; for each enabled criterion multiply position `i`'s
rank by `np.argsort(criterion values)[i]`; when at least one criterion
is enabled, stable-sort the list by rank and set `_did_sort`. -/
def FMin.sort_spaces (fm : FMin) (use_complexity use_uncertainty : Bool) : FMin :=
  let sss := fm.searchspaces.map (fun ss => { ss with rank := 1 })
  let sss :=
    if use_complexity then
      applyArgsortRanks sss (argsort (sss.map (fun ss => ss.complexity)))
    else sss
  let sss :=
    if use_uncertainty then
      applyArgsortRanks sss (argsort (sss.map (fun ss => ss.uncertainty)))
    else sss
  if use_complexity || use_uncertainty then
    { fm with searchspaces := List.insertionSort rankLe sss, did_sort := true }
  else
    { fm with searchspaces := sss }

/-- The rank-update loop as the claim words it: each space's rank is
multiplied by that space's own position in the sort permutation — i.e.
by the place at which the space at position `i` lands in the sorted
order, which is the position of `i` inside the argsort list (the
inverse of the permutation the code uses). -/
def applyPositionRanks (sss : List SearchSpace) (idx : List Nat) : List SearchSpace :=
  sss.enum.map (fun p => { p.2 with rank := p.2.rank * idx.indexOf p.1 })

/-- The claim's reading of `sort_spaces`, for comparison with the
embedded code: identical except that each enabled criterion multiplies
a space's rank by the space's position in that criterion's sort
permutation (`applyPositionRanks`) instead of by the argsort entry at
the space's position (`applyArgsortRanks`), and the claim states the
final stable re-order and the switch to ranked weighting
unconditionally. -/
def FMin.sort_spaces_claimed (fm : FMin) (use_complexity use_uncertainty : Bool) : FMin :=
  let sss := fm.searchspaces.map (fun ss => { ss with rank := 1 })
  let sss :=
    if use_complexity then
      applyPositionRanks sss (argsort (sss.map (fun ss => ss.complexity)))
    else sss
  let sss :=
    if use_uncertainty then
      applyPositionRanks sss (argsort (sss.map (fun ss => ss.uncertainty)))
    else sss
  { fm with searchspaces := List.insertionSort rankLe sss, did_sort := true }

/-- The per-position rank factors that one pass of `sort_spaces`
assigns: entry `i` is `argsort(complexities)[i]` when complexity is
enabled times `argsort(uncertainties)[i]` when uncertainty is enabled
(a disabled criterion contributes the factor 1). -/
def criterionRanks (sss : List SearchSpace) (uc uu : Bool) : List Nat :=
  (if uc then argsort (sss.map (fun ss => ss.complexity))
   else List.replicate sss.length 1).zipWith (fun a b => a * b)
    (if uu then argsort (sss.map (fun ss => ss.uncertainty))
     else List.replicate sss.length 1)

/-- The spaces in their original order with the ranks `sort_spaces`
computes for them: position `i` gets rank `criterionRanks[i]`. -/
def rankAssign (sss : List SearchSpace) (uc uu : Bool) : List SearchSpace :=
  sss.zipWith (fun ss r => { ss with rank := r }) (criterionRanks sss uc uu)

/-!
### Embedding of domain.py

`Domain.__init__` (domain.py line 23) stores `self.__complexity = None`;
because of Python's name mangling that assignment creates the attribute
`_Domain__complexity`.  The `complexity` properties of the subclasses
read and write `self.__complexity` from inside the subclass body, which
mangles to `_DiscreteDomain__complexity` / `_ExhaustiveDomain__complexity`
— attributes no constructor ever creates.  Each possibly-absent mangled
attribute is modelled as `Option (Option ℚ)`: `none` means the attribute
does not exist (reading it raises AttributeError), `some none` is a
stored Python `None`, `some (some c)` a stored number. -/

/-- Result of `generate(index=...)`: a domain value when `index` is
false, a position when `index` is true. -/
inductive GenResult (α : Type) : Type where
  | val (v : α)
  | idx (i : Nat)
deriving DecidableEq, Repr

/-- State of a `DiscreteDomain` (domain.py lines 77-107).  The
`self.rng = randint(0, len(domain))` frozen distribution has no state
of its own beyond the length bound; its `rvs()` draws are modelled as
an explicit argument of `generate`. -/
structure DiscreteDomain (α : Type) where
  domain : List α
  path : Option String
  mangled_Domain_complexity : Option (Option ℚ)
  mangled_DiscreteDomain_complexity : Option (Option ℚ)
deriving DecidableEq, Repr

/-- State of an `ExhaustiveDomain` (domain.py lines 110-140) with its
round-robin cursor `idx`. -/
structure ExhaustiveDomain (α : Type) where
  domain : List α
  idx : Nat
  path : Option String
  mangled_Domain_complexity : Option (Option ℚ)
  mangled_ExhaustiveDomain_complexity : Option (Option ℚ)
deriving DecidableEq, Repr

/-- Embedding of `DiscreteDomain.__init__` for a list argument (the
`except AttributeError` wrapping branch is for non-sequence arguments):
the base `Domain.__init__` creates only the `_Domain__complexity`
attribute. -/
def mkDiscreteDomain {α : Type} (domain : List α) (path : Option String) :
    DiscreteDomain α :=
  { domain := domain
    path := path
    mangled_Domain_complexity := some none
    mangled_DiscreteDomain_complexity := none }

/-- Embedding of `ExhaustiveDomain.__init__` for a list argument: sets
`self.idx = 0`, then the base constructor creates `_Domain__complexity`. -/
def mkExhaustiveDomain {α : Type} (domain : List α) (path : Option String) :
    ExhaustiveDomain α :=
  { domain := domain
    idx := 0
    path := path
    mangled_Domain_complexity := some none
    mangled_ExhaustiveDomain_complexity := none }

/-- Embedding of the `DiscreteDomain.complexity` property (domain.py
lines 86-90): read `self._DiscreteDomain__complexity` (AttributeError if
absent); if it holds `None`, store and return `2.0 - 1.0/len(self.domain)`,
else return the stored value. -/
def DiscreteDomain.complexity {α : Type} (d : DiscreteDomain α) :
    Except PyErr (ℚ × DiscreteDomain α) :=
  match d.mangled_DiscreteDomain_complexity with
  | none => .error .attributeError
  | some none =>
    let c : ℚ := 2 - 1 / (d.domain.length : ℚ)
    .ok (c, { d with mangled_DiscreteDomain_complexity := some (some c) })
  | some (some c) => .ok (c, d)

/-- Embedding of the `ExhaustiveDomain.complexity` property (domain.py
lines 117-121), identical to the discrete one up to the mangled name. -/
def ExhaustiveDomain.complexity {α : Type} (d : ExhaustiveDomain α) :
    Except PyErr (ℚ × ExhaustiveDomain α) :=
  match d.mangled_ExhaustiveDomain_complexity with
  | none => .error .attributeError
  | some none =>
    let c : ℚ := 2 - 1 / (d.domain.length : ℚ)
    .ok (c, { d with mangled_ExhaustiveDomain_complexity := some (some c) })
  | some (some c) => .ok (c, d)

/-- Embedding of `DiscreteDomain.generate` (domain.py lines 92-94):
`idx = self.rng.rvs(); return self.domain[idx] if not index else idx`.
`draw` is the `rvs()` outcome; the frozen `randint(0, len(domain))`
distribution only produces draws inside `[0, len(domain))`, and for an
out-of-range index the subscript would raise IndexError.  The domain
object itself is not mutated. -/
def DiscreteDomain.generate {α : Type} (d : DiscreteDomain α) (draw : Nat)
    (index : Bool) : Except PyErr (GenResult α) :=
  if h : draw < d.domain.length then
    .ok (if index then .idx draw else .val (d.domain.get ⟨draw, h⟩))
  else .error .indexError

/-- Embedding of `ExhaustiveDomain.generate` (domain.py lines 123-126):
`val = self.domain[self.idx]; self.idx = (self.idx + 1) %
len(self.domain); return val if not index else self.idx`.  Note that
the value returned under `index=True` is `self.idx` after the
assignment, i.e. the already-advanced cursor. -/
def ExhaustiveDomain.generate {α : Type} (d : ExhaustiveDomain α)
    (index : Bool) : Except PyErr (GenResult α × ExhaustiveDomain α) :=
  if h : d.idx < d.domain.length then
    let val := d.domain.get ⟨d.idx, h⟩
    let d' := { d with idx := (d.idx + 1) % d.domain.length }
    .ok (if index then .idx d'.idx else .val val, d')
  else .error .indexError

/-- A run of `n` successive `generate()` calls (value form) on an
exhaustive domain, collecting the produced values and threading the
cursor state. -/
def ExhaustiveDomain.genN {α : Type} (d : ExhaustiveDomain α) :
    Nat → Except PyErr (List α × ExhaustiveDomain α)
  | 0 => .ok ([], d)
  | n + 1 =>
    match d.generate false with
    | .ok (.val v, d') =>
      match d'.genN n with
      | .ok (vs, d2) => .ok (v :: vs, d2)
      | .error e => .error e
    | .ok (.idx _, _) => .error .typeError
    | .error e => .error e

/-!
### Embedding of domains/base.py

Only the comparison dunder methods and `__hash__` (lines 52-71) are
needed by the claims.  A domain of this hierarchy is modelled as its
base attributes (`id` from the per-class metaclass counter, `name`,
`current`) plus an arbitrary payload type standing for the
variant-specific state of a concrete subclass. -/

/-- A domain of the metaclass-based hierarchy of domains/base.py:
base attributes plus variant-specific state of type `σ`. -/
structure BaseDomain (σ : Type) where
  id : Nat
  name : Option String
  current : Option Int
  state : σ

/-- Embedding of `Domain.__eq__`: `self.name == other.name` (equality
is total in Python, `None == None` is `True`). -/
def BaseDomain.eqPy {σ τ : Type} (a : BaseDomain σ) (b : BaseDomain τ) : Bool :=
  a.name == b.name

/-- Embedding of `Domain.__ne__`: `self.name != other.name`. -/
def BaseDomain.nePy {σ τ : Type} (a : BaseDomain σ) (b : BaseDomain τ) : Bool :=
  a.name != b.name

/-- Embedding of `Domain.__hash__`: `hash(self.name)` — some fixed hash
function of the name alone. -/
def BaseDomain.hashPy {σ : Type} (a : BaseDomain σ) : UInt64 :=
  hash a.name

/-- Python 3 `<` on optional strings: string comparison when both sides
are strings, TypeError when either side is `None`. -/
def pyStrLt (a b : Option String) : Except PyErr Bool :=
  match a, b with
  | some x, some y => .ok (decide (x < y))
  | _, _ => .error .typeError

/-- Python 3 `<=` on optional strings, TypeError on `None`. -/
def pyStrLe (a b : Option String) : Except PyErr Bool :=
  match a, b with
  | some x, some y => .ok (decide (x ≤ y))
  | _, _ => .error .typeError

/-- Embedding of `Domain.__lt__`: `self.name < other.name`. -/
def BaseDomain.ltPy {σ τ : Type} (a : BaseDomain σ) (b : BaseDomain τ) :
    Except PyErr Bool :=
  pyStrLt a.name b.name

/-- Embedding of `Domain.__le__`: `self.name <= other.name`. -/
def BaseDomain.lePy {σ τ : Type} (a : BaseDomain σ) (b : BaseDomain τ) :
    Except PyErr Bool :=
  pyStrLe a.name b.name

/-- Embedding of `Domain.__gt__`: `self.name > other.name`. -/
def BaseDomain.gtPy {σ τ : Type} (a : BaseDomain σ) (b : BaseDomain τ) :
    Except PyErr Bool :=
  pyStrLt b.name a.name

/-- Embedding of `Domain.__ge__`: `self.name >= other.name`. -/
def BaseDomain.gePy {σ τ : Type} (a : BaseDomain σ) (b : BaseDomain τ) :
    Except PyErr Bool :=
  pyStrLe b.name a.name

/-!
### Helper lemmas
-/

/-- Equality of embedded Python results is decidable. -/
instance {ε α : Type} [DecidableEq ε] [DecidableEq α] : DecidableEq (Except ε α) :=
  fun a b =>
  match a, b with
  | .ok x, .ok y =>
    decidable_of_iff (x = y) ⟨fun h => by rw [h], fun h => by injection h⟩
  | .error e, .error f =>
    decidable_of_iff (e = f) ⟨fun h => by rw [h], fun h => by injection h⟩
  | .ok _, .error _ => isFalse (fun h => by injection h)
  | .error _, .ok _ => isFalse (fun h => by injection h)

/-- Scanning a list in which every space is done falls off the end. -/
theorem scanNotDone_all_done :
    ∀ l : List SearchSpace, (∀ ss ∈ l, ss.done = true) →
      scanNotDone l = .error .indexError
  | [], _ => rfl
  | ss :: rest, h => by
    have hss : ss.done = true := h ss (List.mem_cons_self ss rest)
    have hrest := scanNotDone_all_done rest (fun x hx => h x (List.mem_cons_of_mem ss hx))
    simp [scanNotDone, hss, hrest]

/-- Replacing the first match of `p` keeps it the first match, as long
as the replacement still satisfies `p`. -/
theorem find?_replaceFirst {α : Type} (p : α → Bool) (f : α → α) :
    ∀ (l : List α) (x : α), l.find? p = some x → p (f x) = true →
      (replaceFirst p f l).find? p = some (f x)
  | [], x, h, _ => by simp at h
  | a :: l, x, h, hf => by
    by_cases ha : p a = true
    · rw [List.find?_cons_of_pos _ ha] at h
      injection h with h
      subst h
      simp [replaceFirst, ha, List.find?_cons_of_pos _ hf]
    · rw [List.find?_cons_of_neg _ ha] at h
      have ih := find?_replaceFirst p f l x h hf
      unfold replaceFirst
      rw [if_neg ha, List.find?_cons_of_neg _ ha]
      exact ih

/-!
### Concrete fixtures used by the closed theorems and witnesses
-/

/-- A search space that is already done. -/
def ssDone : SearchSpace :=
  { id := "a", complexity := 2, uncertainty := 0, rank := 1, done := true, trials := [] }

/-- An optimizer whose only search space is done. -/
def fmAllDone : FMin :=
  { exp_key := "e", searchspaces := [ssDone], trialKeys := [], max_evals := none,
    did_sort := false }

/-- A search space that is not done. -/
def ssLive : SearchSpace :=
  { id := "a", complexity := 2, uncertainty := 0, rank := 1, done := false, trials := [] }

/-- An optimizer with a single live search space with id `"a"`. -/
def fmOneLive : FMin :=
  { exp_key := "e", searchspaces := [ssLive], trialKeys := [], max_evals := none,
    did_sort := false }

/-!
### C1
-/

/-- C1: the claim states that `generate()` with `ssid` omitted returns
`None` when all search spaces are done (or the scan walks past the end
of the list).  The embedded code instead raises IndexError: the while
condition `self.searchspaces[idx].done and idx < len(self.searchspaces)`
subscripts before it bounds-checks, and that subscript sits outside the
`try` block.  This theorem evaluates the code on that situation: for
every optimizer all of whose search spaces are done, `generate`
propagates IndexError no matter where the weighted draw started and no
matter what the selection method would have produced. -/
theorem generate_noss_all_done_raises (fm : FMin)
    (call : SearchSpace → Except PyErr Trial) (startIdx : Nat)
    (hall : ∀ ss ∈ fm.searchspaces, ss.done = true) :
    fm.generate_noss call startIdx = .error .indexError := by
  have hsub : ∀ ss ∈ fm.searchspaces.drop startIdx, ss.done = true :=
    fun ss hss => hall ss (List.drop_subset startIdx fm.searchspaces hss)
  unfold FMin.generate_noss
  rw [scanNotDone_all_done _ hsub]

/-- C1 witness: the concrete all-done optimizer raises IndexError. -/
theorem generate_noss_all_done_raises_witness :
    fmAllDone.generate_noss (fun _ => .error .indexError) 0 = .error .indexError :=
  generate_noss_all_done_raises fmAllDone (fun _ => .error .indexError) 0 (by decide)

/-!
### C4
-/

/-- C4: with `ssid` given, the claim states a lookup error for an absent
id (which the code delivers: `[...][0]` over an empty filter raises
IndexError) and a generated trial for a present, non-done space.  The
code instead raises NameError whenever the lookup succeeds, because
line 119 reads `ss.done` and `ss` — the comprehension variable of line
117 — is not bound at function scope in Python 3.  Evaluated on a
one-space optimizer: the present id raises NameError instead of
producing a trial, the absent id raises the lookup error. -/
theorem generate_ssid_name_error :
    fmOneLive.generate_ssid "a" = .error .nameError ∧
    fmOneLive.generate_ssid "zz" = .error .indexError := by
  constructor <;> rfl

/-!
### C5
-/

/-- A discrete domain state in which the subclass-mangled complexity
attribute exists and holds a Python `None` — the state the property
body was evidently written for. -/
def ddRepaired : DiscreteDomain Int :=
  { domain := [1, 2, 3], path := none, mangled_Domain_complexity := some none,
    mangled_DiscreteDomain_complexity := some none }

/-- An exhaustive domain with a single value, in the same repaired
attribute state. -/
def edRepaired : ExhaustiveDomain Int :=
  { domain := [7], idx := 0, path := none, mangled_Domain_complexity := some none,
    mangled_ExhaustiveDomain_complexity := some none }

/-- C5: the claim states that reading `complexity` on a Discrete or
Exhaustive domain returns `2.0 - 1/len(domain)`.  Reading the property
on a freshly constructed domain instead raises AttributeError:
`Domain.__init__` creates `_Domain__complexity`, while the property
reads the subclass-mangled `_DiscreteDomain__complexity` /
`_ExhaustiveDomain__complexity`, which no constructor creates.  The
last two conjuncts evaluate the property body on a state in which the
subclass attribute does exist and holds `None` — showing the intended
memoized value `2 - 1/3 = 5/3`, and `1` for a single-value domain, which
is what the claim (and the spec's fixed-domain invariant) describes. -/
theorem complexity_attribute_error :
    (mkDiscreteDomain ([1, 2, 3] : List Int) none).complexity = .error .attributeError ∧
    (mkExhaustiveDomain ([1, 2, 3] : List Int) none).complexity = .error .attributeError ∧
    ddRepaired.complexity =
      .ok (5/3, { ddRepaired with
        mangled_DiscreteDomain_complexity := some (some (5/3)) }) ∧
    edRepaired.complexity =
      .ok (1, { edRepaired with
        mangled_ExhaustiveDomain_complexity := some (some 1) }) := by
  refine ⟨rfl, rfl, ?_, ?_⟩ <;>
    · simp [DiscreteDomain.complexity, ExhaustiveDomain.complexity, ddRepaired, edRepaired]
      norm_num

/-!
### C2
-/

/-- C2: for an optimizer with `max_evals = m`, registering a result on a
search space of complexity 1 sets the space's `done` flag exactly when
the number of its terminal-success trials (`status.value == 3`) exceeds
`m`: after the registration the updated space is `done` iff `m` is
strictly below its count of status-3 trials.  Starting from a not-done
space, this is precisely the max_evals=5 scenario — the 6th
terminal-success registration makes the count 6 > 5 and flips `done`,
the 5th does not. -/
theorem register_result_done_iff (fm : FMin) (ssid tid : String)
    (obj res : Option Int) (err : Option String) (ss : SearchSpace) (t : Trial) (m : Int)
    (hss : fm.searchspaces.find? (fun s => s.id == ssid) = some ss)
    (ht : ss.trials.find? (fun u => u.id == tid) = some t)
    (hc : ss.complexity = 1)
    (hm : fm.max_evals = some m)
    (hd : ss.done = false) :
    ∃ fm' n hyp, fm.register_result ssid tid obj res err = .ok (fm', n, hyp) ∧
      ∀ ss', fm'.searchspaces.find? (fun s => s.id == ssid) = some ss' →
        (ss'.done = true ↔
          m < ((ss'.trials.filter (fun u => u.statusValue == 3)).length : Int)) := by
  have hpss : (ss.id == ssid) = true :=
    List.find?_some (p := fun (s : SearchSpace) => s.id == ssid) hss
  simp only [FMin.register_result, hss, ht, hc, hm, beq_self_eq_true, if_true]
  set t2 : Trial :=
    { (t.applyResult obj res err) with submissions := (t.applyResult obj res err).submissions + 1 }
    with ht2
  set ss1 : SearchSpace :=
    { ss with trials := replaceFirst (fun u => u.id == tid) (fun _ => t2) ss.trials } with hss1
  by_cases hnd :
      ((ss1.trials.filter (fun u => u.statusValue == 3)).length : Int) > m
  · rw [if_pos hnd]
    refine ⟨_, _, _, rfl, ?_⟩
    intro ss' h'
    rw [find?_replaceFirst _ _ _ _ hss (by simpa using hpss)] at h'
    injection h' with h'
    subst h'
    simpa using hnd
  · rw [if_neg hnd]
    refine ⟨_, _, _, rfl, ?_⟩
    intro ss' h'
    rw [find?_replaceFirst _ _ _ _ hss (by simpa using hpss)] at h'
    injection h' with h'
    subst h'
    simp only [hss1]
    constructor
    · intro hfalse
      simp [hd] at hfalse
    · intro hcount
      exact absurd (by simpa using hcount) hnd

/-- One of the five already-successful trials of the enumerated-space
scenario. -/
def doneTrial (n : Nat) : Trial :=
  { id := toString n, hyperparameters := [], objective := some 0, results := none,
    errmsg := none, statusValue := 3, submissions := 1 }

/-- The still-unreported sixth trial of the enumerated-space scenario. -/
def newTrial : Trial :=
  { id := "new", hyperparameters := [("x", 4)], objective := none, results := none,
    errmsg := none, statusValue := 0, submissions := 0 }

/-- A fully-enumerated search space (complexity 1) with five
terminal-success trials and one still-open trial. -/
def ssEnumerated : SearchSpace :=
  { id := "s", complexity := 1, uncertainty := 0, rank := 1, done := false,
    trials := [doneTrial 1, doneTrial 2, doneTrial 3, doneTrial 4, doneTrial 5, newTrial] }

/-- The max_evals=5 scenario optimizer. -/
def fmCap5 : FMin :=
  { exp_key := "e", searchspaces := [ssEnumerated], trialKeys := [], max_evals := some 5,
    did_sort := false }

/-- C2 witness: registering the sixth successful result against the
concrete max_evals=5 optimizer. -/
theorem register_result_done_iff_witness :
    ∃ fm' n hyp, fmCap5.register_result "s" "new" (some 10) none none = .ok (fm', n, hyp) ∧
      ∀ ss', fm'.searchspaces.find? (fun s => s.id == "s") = some ss' →
        (ss'.done = true ↔
          (5 : Int) < ((ss'.trials.filter (fun u => u.statusValue == 3)).length : Int)) :=
  register_result_done_iff fmCap5 "s" "new" (some 10) none none ssEnumerated newTrial 5
    (by rfl) (by rfl) (by rfl) (by rfl) (by rfl)

/-!
### C8
-/

/-- C8: registering a result again for a trial that was already
registered once (submission counter at least 1) increments the counter
by exactly 1, overwrites the trial's objective, results and errmsg with
the latest values, and returns the updated submission count together
with the trial's hyperparameter mapping.  The side condition `hcfg`
records that the first successful registration is only possible when a
complexity-1 space comes with a configured `max_evals` (otherwise
register_result raises, see the C9 theorem). -/
theorem register_result_resubmission (fm : FMin) (ssid tid : String)
    (obj res : Option Int) (err : Option String) (ss : SearchSpace) (t : Trial)
    (hss : fm.searchspaces.find? (fun s => s.id == ssid) = some ss)
    (ht : ss.trials.find? (fun u => u.id == tid) = some t)
    (hprev : 1 ≤ t.submissions)
    (hcfg : ss.complexity = 1 → fm.max_evals ≠ none) :
    ∃ fm', fm.register_result ssid tid obj res err =
        .ok (fm', t.submissions + 1, t.hyperparameters) ∧
      ∃ t', fm'.findTrial ssid tid = some t' ∧
        t'.objective = obj ∧ t'.results = res ∧ t'.errmsg = err ∧
        t'.submissions = t.submissions + 1 ∧
        t'.hyperparameters = t.hyperparameters := by
  have hpss : (ss.id == ssid) = true :=
    List.find?_some (p := fun (s : SearchSpace) => s.id == ssid) hss
  have hpt : (t.id == tid) = true :=
    List.find?_some (p := fun (u : Trial) => u.id == tid) ht
  simp only [FMin.register_result, hss, ht]
  set t2 : Trial :=
    { (t.applyResult obj res err) with submissions := (t.applyResult obj res err).submissions + 1 }
    with ht2
  set ss1 : SearchSpace :=
    { ss with trials := replaceFirst (fun u => u.id == tid) (fun _ => t2) ss.trials } with hss1
  have htr : ss1.trials.find? (fun u => u.id == tid) = some t2 := by
    rw [hss1]
    exact find?_replaceFirst _ _ _ _ ht (by simpa using hpt)
  by_cases hcq : (ss1.complexity == 1) = true
  · obtain ⟨m, hm⟩ := Option.ne_none_iff_exists'.mp (hcfg (by simpa [hss1] using hcq))
    simp only [hcq, if_true, hm]
    by_cases hnd :
        ((ss1.trials.filter (fun u => u.statusValue == 3)).length : Int) > m
    · rw [if_pos hnd]
      refine ⟨_, rfl, t2, ?_, rfl, rfl, rfl, rfl, rfl⟩
      unfold FMin.findTrial
      rw [find?_replaceFirst _ _ _ _ hss (by simpa [hss1] using hpss)]
      simpa using htr
    · rw [if_neg hnd]
      refine ⟨_, rfl, t2, ?_, rfl, rfl, rfl, rfl, rfl⟩
      unfold FMin.findTrial
      rw [find?_replaceFirst _ _ _ _ hss (by simpa [hss1] using hpss)]
      simpa using htr
  · simp only [hcq, if_false, Bool.false_eq_true]
    refine ⟨_, rfl, t2, ?_, rfl, rfl, rfl, rfl, rfl⟩
    unfold FMin.findTrial
    rw [find?_replaceFirst _ _ _ _ hss (by simpa [hss1] using hpss)]
    simpa using htr

/-- A previously registered trial: one submission already recorded. -/
def tPrev : Trial :=
  { id := "t", hyperparameters := [("x", 1)], objective := some 3, results := some 0,
    errmsg := none, statusValue := 3, submissions := 1 }

/-- A search space of complexity 2 owning the already-registered trial. -/
def ssResub : SearchSpace :=
  { id := "s2", complexity := 2, uncertainty := 0, rank := 1, done := false,
    trials := [tPrev] }

/-- Optimizer fixture for the re-registration witness. -/
def fmResub : FMin :=
  { exp_key := "e", searchspaces := [ssResub], trialKeys := ["t"], max_evals := some 5,
    did_sort := false }

/-- C8 witness: re-registering the concrete already-registered trial. -/
theorem register_result_resubmission_witness :
    ∃ fm', fmResub.register_result "s2" "t" (some 7) (some 9) none =
        .ok (fm', tPrev.submissions + 1, tPrev.hyperparameters) ∧
      ∃ t', fm'.findTrial "s2" "t" = some t' ∧
        t'.objective = some 7 ∧ t'.results = some 9 ∧ t'.errmsg = none ∧
        t'.submissions = tPrev.submissions + 1 ∧
        t'.hyperparameters = tPrev.hyperparameters :=
  register_result_resubmission fmResub "s2" "t" (some 7) (some 9) none ssResub tPrev
    (by rfl) (by rfl) (by decide) (fun _ h => Option.noConfusion h)

/-!
### C9
-/

/-- C9: with `max_evals` left at its default `None`, registering a
result against a complexity-1 search space raises: the check
`n_done > self.max_evals` compares an int with `None`, a TypeError in
Python 3, instead of returning the submission count. -/
theorem register_result_max_evals_none_raises (fm : FMin) (ssid tid : String)
    (obj res : Option Int) (err : Option String) (ss : SearchSpace) (t : Trial)
    (hss : fm.searchspaces.find? (fun s => s.id == ssid) = some ss)
    (ht : ss.trials.find? (fun u => u.id == tid) = some t)
    (hc : ss.complexity = 1) (hm : fm.max_evals = none) :
    fm.register_result ssid tid obj res err = .error .typeError := by
  simp only [FMin.register_result, hss, ht, hc, hm, beq_self_eq_true, if_true]

/-- Optimizer with the complexity-1 space but no max_evals configured. -/
def fmNoCap : FMin :=
  { exp_key := "e", searchspaces := [ssEnumerated], trialKeys := [], max_evals := none,
    did_sort := false }

/-- C9 witness: the concrete registration raises TypeError. -/
theorem register_result_max_evals_none_raises_witness :
    fmNoCap.register_result "s" "new" (some 10) none none = .error .typeError :=
  register_result_max_evals_none_raises fmNoCap "s" "new" (some 10) none none
    ssEnumerated newTrial (by rfl) (by rfl) (by rfl) (by rfl)

/-!
### C6
-/

/-- Running `j` generate calls from cursor `idx` produces the `j`-long
window of the doubled list starting at `idx` and leaves the cursor at
`(idx + j) mod len`, for `j` up to the domain size. -/
theorem ExhaustiveDomain.genN_eq {α : Type} :
    ∀ (j : Nat) (d : ExhaustiveDomain α), d.idx < d.domain.length →
      j ≤ d.domain.length →
      d.genN j = .ok (((d.domain ++ d.domain).drop d.idx).take j,
        { d with idx := (d.idx + j) % d.domain.length })
  | 0, d, h, _ => by
    simp [genN, Nat.mod_eq_of_lt h]
  | j + 1, d, h, hj => by
    have hn : 0 < d.domain.length := Nat.lt_of_le_of_lt (Nat.zero_le _) h
    have hgen : d.generate false =
        .ok (.val (d.domain.get ⟨d.idx, h⟩),
             { d with idx := (d.idx + 1) % d.domain.length }) := by
      simp [generate, h]
    have hlt : ((d.idx + 1) % d.domain.length) < d.domain.length :=
      Nat.mod_lt _ hn
    have ih := ExhaustiveDomain.genN_eq j
      { d with idx := (d.idx + 1) % d.domain.length } hlt (Nat.le_of_succ_le hj)
    simp only [genN, hgen, ih]
    have hidx : ((d.idx + 1) % d.domain.length + j) % d.domain.length =
        (d.idx + (j + 1)) % d.domain.length := by
      rw [Nat.mod_add_mod]
      congr 1
      omega
    have hlen2 : d.idx < (d.domain ++ d.domain).length := by
      simp
      omega
    have hcons : (d.domain ++ d.domain).drop d.idx =
        (d.domain ++ d.domain).get ⟨d.idx, hlen2⟩ :: (d.domain ++ d.domain).drop (d.idx + 1) :=
      List.drop_eq_getElem_cons hlen2
    have hget : (d.domain ++ d.domain).get ⟨d.idx, hlen2⟩ = d.domain.get ⟨d.idx, h⟩ := by
      simp only [List.get_eq_getElem]
      rw [List.getElem_append_left h]
    have htail : (((d.domain ++ d.domain)).drop ((d.idx + 1) % d.domain.length)).take j =
        (((d.domain ++ d.domain)).drop (d.idx + 1)).take j := by
      rcases Nat.lt_or_ge (d.idx + 1) d.domain.length with hlt1 | hge1
      · rw [Nat.mod_eq_of_lt hlt1]
      · have heq : d.idx + 1 = d.domain.length := Nat.le_antisymm h hge1
        rw [heq, Nat.mod_self, List.drop_zero, List.drop_left,
          List.take_append_of_le_length (by omega)]
    rw [hidx, hcons, hget, List.take_succ_cons, htail]

/-- C6: from any reachable cursor position, `len(domain)` successive
`generate()` calls on an exhaustive domain produce the rotation of the
value list that starts at the cursor — every element exactly once, as
the permutation in the second conjunct states — and return the domain
to exactly its starting state (cursor included). -/
theorem exhaustive_round_robin {α : Type} (d : ExhaustiveDomain α)
    (h : d.idx < d.domain.length) :
    d.genN d.domain.length =
      .ok (d.domain.drop d.idx ++ d.domain.take d.idx, d) ∧
    (d.domain.drop d.idx ++ d.domain.take d.idx).Perm d.domain := by
  constructor
  · have haux := ExhaustiveDomain.genN_eq d.domain.length d h (Nat.le_refl _)
    have hvals : ((d.domain ++ d.domain).drop d.idx).take d.domain.length =
        d.domain.drop d.idx ++ d.domain.take d.idx := by
      rw [List.drop_append_of_le_length (Nat.le_of_lt h),
        List.take_append_eq_append_take,
        List.take_of_length_le (by simp),
        List.length_drop]
      have hsub : d.domain.length - (d.domain.length - d.idx) = d.idx := by omega
      rw [hsub]
    have hix : (d.idx + d.domain.length) % d.domain.length = d.idx := by
      rw [Nat.add_mod_right]
      exact Nat.mod_eq_of_lt h
    rw [haux, hvals, hix]
  · refine List.perm_append_comm.trans ?_
    rw [List.take_append_drop]

/-- An exhaustive domain over three values whose cursor has already
advanced to position 1. -/
def edThree : ExhaustiveDomain Int :=
  { domain := [10, 20, 30], idx := 1, path := none,
    mangled_Domain_complexity := some none,
    mangled_ExhaustiveDomain_complexity := none }

/-- C6 witness: three calls starting at cursor 1 produce the rotation
and restore the state. -/
theorem exhaustive_round_robin_witness :
    edThree.genN edThree.domain.length =
      .ok (edThree.domain.drop edThree.idx ++ edThree.domain.take edThree.idx, edThree) ∧
    (edThree.domain.drop edThree.idx ++ edThree.domain.take edThree.idx).Perm edThree.domain :=
  exhaustive_round_robin edThree (by decide)

/-!
### C7
-/

/-- C7 counterexample: the exhaustive domain over `[10, 20]` at cursor
0.  In this state `generate(index=False)` produces the value `10` (the
element at position 0), but `generate(index=True)` returns `1` — the
cursor after advancing — and `domain[1] = 20 ≠ 10`, so the returned
integer is not the positional index of the generated value. -/
theorem exhaustive_index_mismatch :
    (mkExhaustiveDomain ([10, 20] : List Int) none).generate true =
      .ok (.idx 1, { mkExhaustiveDomain ([10, 20] : List Int) none with idx := 1 }) ∧
    (mkExhaustiveDomain ([10, 20] : List Int) none).generate false =
      .ok (.val 10, { mkExhaustiveDomain ([10, 20] : List Int) none with idx := 1 }) ∧
    (mkExhaustiveDomain ([10, 20] : List Int) none).domain.getD 1 0 = 20 ∧
    (20 : Int) ≠ 10 := by
  refine ⟨rfl, rfl, rfl, by decide⟩

/-- C7 (amended): `generate(index=True)` always returns an integer in
`[0, len(domain))` for both domain kinds.  For a Discrete domain it is
the positional index of the value that `generate(index=False)` would
have produced from the same draw.  For an Exhaustive domain it is the
advanced cursor `(idx + 1) mod len` — the position of the value the
NEXT call will produce — while the value produced in the same state is
the one at the pre-advance cursor, so the two coincide only for
single-value domains. -/
theorem generate_index_form {α : Type} (dd : DiscreteDomain α) (i : Nat)
    (hi : i < dd.domain.length)
    (de : ExhaustiveDomain α) (he : de.idx < de.domain.length) :
    (dd.generate i true = .ok (.idx i) ∧ i < dd.domain.length ∧
      dd.generate i false = .ok (.val (dd.domain.get ⟨i, hi⟩))) ∧
    ((de.idx + 1) % de.domain.length < de.domain.length ∧
      de.generate true = .ok (.idx ((de.idx + 1) % de.domain.length),
        { de with idx := (de.idx + 1) % de.domain.length }) ∧
      de.generate false = .ok (.val (de.domain.get ⟨de.idx, he⟩),
        { de with idx := (de.idx + 1) % de.domain.length })) := by
  refine ⟨⟨?_, hi, ?_⟩, ?_, ?_, ?_⟩
  · simp [DiscreteDomain.generate, hi]
  · simp [DiscreteDomain.generate, hi]
  · exact Nat.mod_lt _ (Nat.lt_of_le_of_lt (Nat.zero_le _) he)
  · simp [ExhaustiveDomain.generate, he]
  · simp [ExhaustiveDomain.generate, he]

/-- Discrete fixture for the C7 witness. -/
def ddThree : DiscreteDomain Int := mkDiscreteDomain [4, 5, 6] none

/-- C7 witness: the amended index/value relationship at draw 2 on a
three-value discrete domain and at cursor 1 on the three-value
exhaustive domain. -/
theorem generate_index_form_witness :
    (ddThree.generate 2 true = .ok (.idx 2) ∧ 2 < ddThree.domain.length ∧
      ddThree.generate 2 false = .ok (.val (ddThree.domain.get ⟨2, by decide⟩))) ∧
    ((edThree.idx + 1) % edThree.domain.length < edThree.domain.length ∧
      edThree.generate true = .ok (.idx ((edThree.idx + 1) % edThree.domain.length),
        { edThree with idx := (edThree.idx + 1) % edThree.domain.length }) ∧
      edThree.generate false = .ok (.val (edThree.domain.get ⟨edThree.idx, by decide⟩),
        { edThree with idx := (edThree.idx + 1) % edThree.domain.length })) :=
  generate_index_form ddThree 2 (by decide) edThree (by decide)

/-!
### C10
-/

/-- C10: all six comparison methods and the hash of the metaclass-based
Domain hierarchy depend only on the `name` attribute.  Replacing either
operand by a domain with the same name — but any other id, current
value, or variant-specific state, of any variant type — leaves every
comparison unchanged, and two domains with equal names are equal under
`__eq__` with equal hashes. -/
theorem domain_cmp_name_only {σ τ σ1 τ1 : Type}
    (a : BaseDomain σ) (b : BaseDomain τ) (a1 : BaseDomain σ1) (b1 : BaseDomain τ1)
    (ha : a.name = a1.name) (hb : b.name = b1.name) :
    (a.eqPy b = a1.eqPy b1 ∧ a.nePy b = a1.nePy b1 ∧
     a.ltPy b = a1.ltPy b1 ∧ a.lePy b = a1.lePy b1 ∧
     a.gtPy b = a1.gtPy b1 ∧ a.gePy b = a1.gePy b1 ∧
     a.hashPy = a1.hashPy) ∧
    (a.name = b.name → a.eqPy b = true ∧ a.hashPy = b.hashPy) := by
  constructor
  · refine ⟨?_, ?_, ?_, ?_, ?_, ?_, ?_⟩ <;>
      simp [BaseDomain.eqPy, BaseDomain.nePy, BaseDomain.ltPy, BaseDomain.lePy,
        BaseDomain.gtPy, BaseDomain.gePy, BaseDomain.hashPy, ha, hb]
  · intro hab
    constructor
    · simp [BaseDomain.eqPy, hab]
    · simp [BaseDomain.hashPy, hab]

/-- C10 witness: two domains named identically but differing in id,
current value, and even the type of their variant state compare equal
and hash equal, and all comparisons agree with those of renamed-alike
copies. -/
theorem domain_cmp_name_only_witness :
    ((⟨0, some "x", none, 7⟩ : BaseDomain Nat).eqPy (⟨5, some "y", some 1, "s"⟩ : BaseDomain String) =
       (⟨9, some "x", some 3, true⟩ : BaseDomain Bool).eqPy (⟨2, some "y", none, ()⟩ : BaseDomain Unit) ∧
     (⟨0, some "x", none, 7⟩ : BaseDomain Nat).nePy (⟨5, some "y", some 1, "s"⟩ : BaseDomain String) =
       (⟨9, some "x", some 3, true⟩ : BaseDomain Bool).nePy (⟨2, some "y", none, ()⟩ : BaseDomain Unit) ∧
     (⟨0, some "x", none, 7⟩ : BaseDomain Nat).ltPy (⟨5, some "y", some 1, "s"⟩ : BaseDomain String) =
       (⟨9, some "x", some 3, true⟩ : BaseDomain Bool).ltPy (⟨2, some "y", none, ()⟩ : BaseDomain Unit) ∧
     (⟨0, some "x", none, 7⟩ : BaseDomain Nat).lePy (⟨5, some "y", some 1, "s"⟩ : BaseDomain String) =
       (⟨9, some "x", some 3, true⟩ : BaseDomain Bool).lePy (⟨2, some "y", none, ()⟩ : BaseDomain Unit) ∧
     (⟨0, some "x", none, 7⟩ : BaseDomain Nat).gtPy (⟨5, some "y", some 1, "s"⟩ : BaseDomain String) =
       (⟨9, some "x", some 3, true⟩ : BaseDomain Bool).gtPy (⟨2, some "y", none, ()⟩ : BaseDomain Unit) ∧
     (⟨0, some "x", none, 7⟩ : BaseDomain Nat).gePy (⟨5, some "y", some 1, "s"⟩ : BaseDomain String) =
       (⟨9, some "x", some 3, true⟩ : BaseDomain Bool).gePy (⟨2, some "y", none, ()⟩ : BaseDomain Unit) ∧
     (⟨0, some "x", none, 7⟩ : BaseDomain Nat).hashPy =
       (⟨9, some "x", some 3, true⟩ : BaseDomain Bool).hashPy) ∧
    ((⟨0, some "x", none, 7⟩ : BaseDomain Nat).name =
        (⟨5, some "y", some 1, "s"⟩ : BaseDomain String).name →
      (⟨0, some "x", none, 7⟩ : BaseDomain Nat).eqPy (⟨5, some "y", some 1, "s"⟩ : BaseDomain String) = true ∧
      (⟨0, some "x", none, 7⟩ : BaseDomain Nat).hashPy =
        (⟨5, some "y", some 1, "s"⟩ : BaseDomain String).hashPy) :=
  domain_cmp_name_only (⟨0, some "x", none, 7⟩ : BaseDomain Nat)
    (⟨5, some "y", some 1, "s"⟩ : BaseDomain String)
    (⟨9, some "x", some 3, true⟩ : BaseDomain Bool)
    (⟨2, some "y", none, ()⟩ : BaseDomain Unit) (by rfl) (by rfl)

/-!
### C3
-/

/-- An argsort has one entry per input value. -/
theorem argsort_length (vals : List ℚ) : (argsort vals).length = vals.length := by
  simp [argsort, List.length_insertionSort, List.enum_length]

/-- Resetting ranks does not change the complexity column. -/
theorem map_complexity_reset (sss : List SearchSpace) :
    (sss.map (fun ss => { ss with rank := 1 })).map (fun ss => ss.complexity) =
      sss.map (fun ss => ss.complexity) := by
  rw [List.map_map]
  rfl

/-- Resetting ranks does not change the uncertainty column. -/
theorem map_uncertainty_reset (sss : List SearchSpace) :
    (sss.map (fun ss => { ss with rank := 1 })).map (fun ss => ss.uncertainty) =
      sss.map (fun ss => ss.uncertainty) := by
  rw [List.map_map]
  rfl

/-- Multiplying ranks in does not change the uncertainty column. -/
theorem applyArgsortRanks_map_uncertainty :
    ∀ (sss : List SearchSpace) (idx : List Nat), sss.length ≤ idx.length →
      (applyArgsortRanks sss idx).map (fun ss => ss.uncertainty) =
        sss.map (fun ss => ss.uncertainty)
  | [], _, _ => by simp [applyArgsortRanks]
  | _ :: _, [], hl => by simp at hl
  | ss :: sss, j :: idx, hl => by
    have ih := applyArgsortRanks_map_uncertainty sss idx (Nat.le_of_succ_le_succ hl)
    simp only [applyArgsortRanks, List.zipWith_cons_cons, List.map_cons] at ih ⊢
    rw [ih]

/-- Multiplying factors into freshly reset ranks just installs the
factors. -/
theorem applyArgsortRanks_reset :
    ∀ (sss : List SearchSpace) (idx : List Nat),
      applyArgsortRanks (sss.map (fun ss => { ss with rank := 1 })) idx =
        sss.zipWith (fun ss r => { ss with rank := r }) idx
  | [], idx => by simp [applyArgsortRanks]
  | _ :: _, [] => by simp [applyArgsortRanks]
  | ss :: sss, j :: idx => by
    have ih := applyArgsortRanks_reset sss idx
    simp only [List.map_cons, applyArgsortRanks, List.zipWith_cons_cons] at ih ⊢
    rw [ih]
    simp

/-- A second multiplication pass compounds with the first pointwise. -/
theorem applyArgsortRanks_zipWith :
    ∀ (sss : List SearchSpace) (r1 r2 : List Nat),
      applyArgsortRanks (sss.zipWith (fun ss r => { ss with rank := r }) r1) r2 =
        sss.zipWith (fun ss r => { ss with rank := r })
          (r1.zipWith (fun a b => a * b) r2)
  | [], _, _ => by simp [applyArgsortRanks]
  | _ :: _, [], _ => by simp [applyArgsortRanks]
  | _ :: _, _ :: _, [] => by simp [applyArgsortRanks]
  | ss :: sss, a :: r1, b :: r2 => by
    have ih := applyArgsortRanks_zipWith sss r1 r2
    simp only [applyArgsortRanks, List.zipWith_cons_cons] at ih ⊢
    rw [ih]

/-- Pointwise product with a list of ones on the right. -/
theorem zipWith_mul_replicate_one :
    ∀ (l : List Nat) (n : Nat), l.length ≤ n →
      l.zipWith (fun a b => a * b) (List.replicate n 1) = l
  | [], _, _ => by simp
  | _ :: _, 0, hl => by simp at hl
  | a :: l, n + 1, hl => by
    have ih := zipWith_mul_replicate_one l n (Nat.le_of_succ_le_succ hl)
    simp only [List.replicate_succ, List.zipWith_cons_cons]
    rw [ih]
    simp

/-- Pointwise product with a list of ones on the left. -/
theorem replicate_one_zipWith_mul :
    ∀ (l : List Nat) (n : Nat), l.length ≤ n →
      (List.replicate n 1).zipWith (fun a b => a * b) l = l
  | [], _, _ => by simp
  | _ :: _, 0, hl => by simp at hl
  | a :: l, n + 1, hl => by
    have ih := replicate_one_zipWith_mul l n (Nat.le_of_succ_le_succ hl)
    simp only [List.replicate_succ, List.zipWith_cons_cons]
    rw [ih]
    simp

/-- C3 (amended): when at least one criterion is enabled, `sort_spaces`
resets every rank to 1, multiplies the rank of the space at position
`i` by `argsort(criterion values)[i]` for each enabled criterion — the
index of the space that sorts into position `i`, not the space's own
position in the sorted order as the claim states — and then stably
re-orders the list into nondecreasing rank order (a permutation of the
ranked spaces) and switches `generate()` to ranked weighting. -/
theorem sort_spaces_spec (fm : FMin) (uc uu : Bool) (h : (uc || uu) = true) :
    (fm.sort_spaces uc uu).searchspaces =
      List.insertionSort rankLe (rankAssign fm.searchspaces uc uu) ∧
    (fm.sort_spaces uc uu).searchspaces.Perm (rankAssign fm.searchspaces uc uu) ∧
    List.Sorted rankLe (fm.sort_spaces uc uu).searchspaces ∧
    (fm.sort_spaces uc uu).did_sort = true := by
  have hmain : (fm.sort_spaces uc uu).searchspaces =
      List.insertionSort rankLe (rankAssign fm.searchspaces uc uu) ∧
      (fm.sort_spaces uc uu).did_sort = true := by
    have hlenc : (argsort ((fm.searchspaces.map
        (fun ss => { ss with rank := 1 })).map (fun ss => ss.complexity))).length =
        fm.searchspaces.length := by
      rw [argsort_length, List.length_map, List.length_map]
    cases uc <;> cases uu
    · simp at h
    · -- complexity off, uncertainty on
      simp only [FMin.sort_spaces, rankAssign, criterionRanks, if_false, if_true,
        Bool.false_eq_true, Bool.or_self, Bool.false_or, ite_true, ite_false,
        cond_true, cond_false]
      refine ⟨?_, by trivial⟩
      rw [map_uncertainty_reset, applyArgsortRanks_reset,
        replicate_one_zipWith_mul _ _ (by simp [argsort_length])]
    · -- complexity on, uncertainty off
      simp only [FMin.sort_spaces, rankAssign, criterionRanks, if_false, if_true,
        Bool.false_eq_true, Bool.or_self, Bool.or_false, ite_true, ite_false,
        cond_true, cond_false]
      refine ⟨?_, by trivial⟩
      rw [map_complexity_reset, applyArgsortRanks_reset,
        zipWith_mul_replicate_one _ _ (by simp [argsort_length])]
    · -- both on
      simp only [FMin.sort_spaces, rankAssign, criterionRanks, if_true,
        Bool.or_self, ite_true]
      refine ⟨?_, by trivial⟩
      rw [map_complexity_reset, applyArgsortRanks_map_uncertainty _ _
          (by simp [argsort_length]),
        map_uncertainty_reset, applyArgsortRanks_reset, applyArgsortRanks_zipWith]
  refine ⟨hmain.1, ?_, ?_, hmain.2⟩
  · rw [hmain.1]
    exact List.perm_insertionSort rankLe _
  · rw [hmain.1]
    exact List.sorted_insertionSort rankLe _

/-- First of the three counterexample spaces: complexity 2. -/
def ssA : SearchSpace :=
  { id := "a", complexity := 2, uncertainty := 0, rank := 7, done := false, trials := [] }

/-- Second counterexample space: complexity 3. -/
def ssB : SearchSpace :=
  { id := "b", complexity := 3, uncertainty := 0, rank := 7, done := false, trials := [] }

/-- Third counterexample space: complexity 1 (the simplest). -/
def ssC : SearchSpace :=
  { id := "c", complexity := 1, uncertainty := 0, rank := 7, done := false, trials := [] }

/-- Optimizer over the three spaces in order a, b, c. -/
def fmThree : FMin :=
  { exp_key := "e", searchspaces := [ssA, ssB, ssC], trialKeys := [], max_evals := none,
    did_sort := false }

/-- C3 counterexample: with complexities (2, 3, 1), the complexity
argsort is `[2, 0, 1]`, so the code multiplies the ranks of (a, b, c)
by (2, 0, 1) and sorts to the order b, c, a.  Under the claim's rule —
multiply each space's rank by its own position in the sorted order,
i.e. by the inverse permutation (1, 2, 0) — the result would be the
order c, a, b.  The two disagree on this input, so the claim as stated
is false of the code.  The last two conjuncts show the claim's
unconditional switch to ranked weighting is also wrong: with both
criteria disabled the code leaves `_did_sort` unset. -/
theorem sort_spaces_rank_direction :
    ((fmThree.sort_spaces true false).searchspaces.map (fun ss => ss.id) =
      ["b", "c", "a"]) ∧
    ((fmThree.sort_spaces_claimed true false).searchspaces.map (fun ss => ss.id) =
      ["c", "a", "b"]) ∧
    (fmThree.sort_spaces false false).did_sort = false ∧
    (fmThree.sort_spaces_claimed false false).did_sort = true := by
  refine ⟨by decide, by decide, by decide, by decide⟩

/-- C3 witness: the amended characterisation applied to the concrete
three-space optimizer with only the complexity criterion enabled. -/
theorem sort_spaces_spec_witness :
    (fmThree.sort_spaces true false).searchspaces =
      List.insertionSort rankLe (rankAssign fmThree.searchspaces true false) ∧
    (fmThree.sort_spaces true false).searchspaces.Perm
      (rankAssign fmThree.searchspaces true false) ∧
    List.Sorted rankLe (fmThree.sort_spaces true false).searchspaces ∧
    (fmThree.sort_spaces true false).did_sort = true :=
  sort_spaces_spec fmThree true false (by decide)
